import Mathlib

/-!
Verification of `transformer/task.py` (the Locust task model of the
`transformer` repository) against its natural-language specification.

The Python module is shallowly embedded below.  Pure functions of the module
become Lean functions; in-place mutation of local objects (`OrderedDict`
update/setdefault, `list.extend`, dataclass field assignment) is modelled by
explicit state passing; Python exceptions become `Except PyErr`.

External collaborators that are not part of the repository source are
modelled at their interface boundary:
* the Python standard library `json.loads` is an explicit function parameter
  `jsonLoads : String -> Option PyVal`;
* the blacklist collaborator `on_blacklist` is an explicit Boolean predicate
  parameter on host strings;
* `transformer.python` AST nodes, `transformer.request.Request`, and
  `transformer.helpers.zip_kv_pairs` are modelled from the specification
  (their files are outside the embedded source), as plain data constructors.

Quote marks that appear inside Python error-message strings are omitted from
the embedded message texts; the message words and the structure of exception
chaining (`raise ... from err`) are kept.
-/

namespace Transformer

/-- A dynamic Python value, as stored in HAR `postData` fields and inside
`py.Literal` AST nodes.  `vBytes s` stands for `s.encode()` (the UTF-8 bytes
of `s`; Lean strings carry no lone surrogates, so encoding never fails). -/
inductive PyVal where
  | vNone
  | vBool (b : Bool)
  | vInt (n : Int)
  | vStr (s : String)
  | vBytes (s : String)
  | vList (xs : List PyVal)
  | vTuple (xs : List PyVal)
  | vDict (xs : List (String × PyVal))

/-- A HAR `postData` object as read by `task.py`: only the `mimeType`,
`text` and `params` keys are ever consulted.  `none` models an absent key. -/
structure PostData where
  mimeType : Option String := none
  text : Option String := none
  params : Option PyVal := none

/-- Python exceptions raised by the embedded code.  `valueError msg cause`
models `raise ValueError(msg) from cause`; `invalidHar pd cause` models the
public entry point wrapper
`ValueError(f"invalid HAR postData object: {pd!r}") from cause`, which
carries the offending descriptor. -/
inductive PyErr where
  | valueError (msg : String) (cause : Option PyErr)
  | typeError (msg : String)
  | keyError (msg : String)
  | attributeError (msg : String)
  | jsonDecodeError (msg : String)
  | invalidHar (postData : PostData) (cause : PyErr)

/-- Whether an exception is an instance of Python `ValueError`
(`json.JSONDecodeError` subclasses `ValueError`). -/
def PyErr.isValueErrorClass : PyErr → Bool
  | .valueError _ _ => true
  | .jsonDecodeError _ => true
  | .invalidHar _ _ => true
  | _ => false

/-- Whether an exception is the `invalidHar` wrapper raised by
`RequestsPostData.from_har_post_data`. -/
def PyErr.isInvalidHar : PyErr → Bool
  | .invalidHar _ _ => true
  | _ => false

/-- Modelled from the spec: an expression node of `transformer.python`
(file not part of the embedded source).  `literal v` is `py.Literal(v)`,
`fstring s` is `py.FString(s)`. -/
inductive PyExpr where
  | literal (value : PyVal)
  | fstring (value : String)

/-- Modelled from the spec: the `py.FunctionCall` node — a call target name
and an ordered keyword-argument map (insertion order preserved). -/
structure FunctionCall where
  name : String
  named_args : List (String × PyExpr)

/-- `JSON_MIME_TYPE = "application/json"`. -/
def JSON_MIME_TYPE : String := "application/json"

/-- `TIMEOUT = 30`. -/
def TIMEOUT : Int := 30

/-- The dataclass `RequestsPostData`: data to be sent via HTTP POST,
along with which API of the requests library to use. -/
structure RequestsPostData where
  data : Option PyExpr := none
  params : Option PyExpr := none
  json : Option PyExpr := none

/-- `RequestsPostData.as_kwargs`: the non-`None` fields, in dataclass field
order (`data`, `params`, `json`), as keyword arguments. -/
def RequestsPostData.as_kwargs (rpd : RequestsPostData) : List (String × PyExpr) :=
  (match rpd.data with | some v => [("data", v)] | none => []) ++
  (match rpd.params with | some v => [("params", v)] | none => []) ++
  (match rpd.json with | some v => [("json", v)] | none => [])

/-- Python `v.encode()`: defined on `str` (always succeeds for Lean strings),
raises `AttributeError` on any other value. -/
def pyEncode : PyVal → Except PyErr PyVal
  | .vStr s => .ok (.vBytes s)
  | .vInt _ => .error (.attributeError "int object has no attribute encode")
  | _ => .error (.attributeError "object has no attribute encode")

/-- Python `d[k]` for a string key: a dict lookup (raising `KeyError` when
the key is missing), `TypeError` on non-dict values. -/
def pyGetItem (v : PyVal) (k : String) : Except PyErr PyVal :=
  match v with
  | .vDict xs =>
    match xs.lookup k with
    | some w => .ok w
    | none => .error (.keyError k)
  | _ => .error (.typeError "value is not subscriptable by a string key")

/-- `_params_from_name_value_dicts`: converts a HAR `params` element into a
list of `(name_bytes, value_bytes)` tuples (the value for the requests
library `params` keyword-argument).  Raises `KeyError` when an element lacks
`name` or `value`, and whatever `.encode()`/indexing raises otherwise. -/
def _params_from_name_value_dicts : List PyVal → Except PyErr (List PyVal)
  | [] => .ok []
  | d :: rest => do
    let n ← pyGetItem d "name"
    let nb ← pyEncode n
    let v ← pyGetItem d "value"
    let vb ← pyEncode v
    let tail ← _params_from_name_value_dicts rest
    return .vTuple [nb, vb] :: tail

/-- `_params_from_post_data`: extracts the `params` list from `post_data`;
`None` when the key is absent, `TypeError` when it is not a list, otherwise
`_params_from_name_value_dicts` applied to it. -/
def _params_from_post_data (post_data : PostData) : Except PyErr (Option (List PyVal)) :=
  match post_data.params with
  | none => .ok none
  | some (.vList ds) => do
    let ps ← _params_from_name_value_dicts ds
    return some ps
  | some _ => .error (.typeError "the params field should be a list")

/-- `_extract_text`: fills `rpd.json` (mandatory, JSON-decoded body) when the
MIME type is exactly `application/json`, else fills `rpd.data` with the
UTF-8 bytes of the body text when one is present.  The in-place mutation of
`rpd` is modelled by returning the updated record. -/
def _extract_text (jsonLoads : String → Option PyVal) (mime : String)
    (post_data : PostData) (rpd : RequestsPostData) : Except PyErr RequestsPostData :=
  let text := post_data.text
  if mime = JSON_MIME_TYPE then
    match text with
    | none => .error (.valueError "missing text field for application/json content" none)
    | some t =>
      match jsonLoads t with
      | some v => .ok { rpd with json := some (.literal v) }
      | none => .error (.valueError "unreadable JSON from field text" (some (.jsonDecodeError t)))
  else
    match text with
    | none => .ok rpd
    | some t => .ok { rpd with data := some (.literal (.vBytes t)) }

/-- Whether an exception is caught by the
`except (KeyError, UnicodeEncodeError, TypeError)` clause of
`_from_har_post_data` (no `UnicodeEncodeError` is representable here). -/
def PyErr.isCaughtParamsErr : PyErr → Bool
  | .keyError _ => true
  | .typeError _ => true
  | _ => false

/-- `_from_har_post_data`: mandatory `mimeType`, mandatory `text`-or-`params`,
then `_extract_text`, then the `params` extraction whose `KeyError` /
`UnicodeEncodeError` / `TypeError` failures are re-raised as
`ValueError("unreadable params field") from err` (other exceptions, such as
`AttributeError`, propagate unchanged). -/
def _from_har_post_data (jsonLoads : String → Option PyVal)
    (post_data : PostData) : Except PyErr RequestsPostData := do
  let mime ← match post_data.mimeType with
    | some m => Except.ok m
    | none => Except.error (.valueError "missing mimeType field" none)
  let rpd : RequestsPostData := {}
  if post_data.text.isNone && post_data.params.isNone then
    Except.error (.valueError "should contain text or params" none)
  else do
    let rpd ← _extract_text jsonLoads mime post_data rpd
    match _params_from_post_data post_data with
    | .ok none => return rpd
    | .ok (some ps) => return { rpd with params := some (.literal (.vList ps)) }
    | .error e =>
      if e.isCaughtParamsErr then
        Except.error (.valueError "unreadable params field" (some e))
      else
        Except.error e

/-- `RequestsPostData.from_har_post_data`, the public entry point of the
Payload Interpreter: re-raises any `ValueError` from `_from_har_post_data`
as `ValueError(f"invalid HAR postData object: {post_data!r}") from err`
(modelled as `PyErr.invalidHar post_data err`); any non-`ValueError`
exception propagates unchanged. -/
def RequestsPostData.from_har_post_data (jsonLoads : String → Option PyVal)
    (post_data : PostData) : Except PyErr RequestsPostData :=
  match _from_har_post_data jsonLoads post_data with
  | .ok rpd => .ok rpd
  | .error e => if e.isValueErrorClass then .error (.invalidHar post_data e) else .error e

/-- Modelled from the spec: the closed HTTP verb enumeration of
`transformer.request` (file not part of the embedded source).  `PATCH` and
`HEAD` are the members without defined call-building behavior. -/
inductive HttpMethod where
  | GET
  | POST
  | PUT
  | OPTIONS
  | DELETE
  | PATCH
  | HEAD
deriving DecidableEq

/-- `r.method.name.lower()`. -/
def HttpMethod.lowerName : HttpMethod → String
  | .GET => "get"
  | .POST => "post"
  | .PUT => "put"
  | .OPTIONS => "options"
  | .DELETE => "delete"
  | .PATCH => "patch"
  | .HEAD => "head"

/-- `f"{method!r}"`: the textual rendering of an `HttpMethod` member used in
the unsupported-method error message (it names the offending method). -/
def HttpMethod.reprName : HttpMethod → String
  | .GET => "HttpMethod.GET"
  | .POST => "HttpMethod.POST"
  | .PUT => "HttpMethod.PUT"
  | .OPTIONS => "HttpMethod.OPTIONS"
  | .DELETE => "HttpMethod.DELETE"
  | .PATCH => "HttpMethod.PATCH"
  | .HEAD => "HttpMethod.HEAD"

/-- `NOOP_HTTP_METHODS = {GET, OPTIONS, DELETE}`. -/
def NOOP_HTTP_METHODS : List HttpMethod := [.GET, .OPTIONS, .DELETE]

/-- Modelled from the spec: the parsed-URL object of a captured request,
exposing `geturl()` (the full URL text) and `netloc` (the origin host
consulted by the blacklist). -/
structure Url where
  geturl : String
  netloc : String

/-- Modelled from the spec: one ordered query name/value pair
(`transformer.request.QueryPair`, a dataclass with `name`/`value`). -/
structure QueryPair where
  name : String
  value : String

/-- Modelled from the spec: one captured HTTP request
(`transformer.request.Request`): method, URL, header pairs, payload
descriptor, ordered query pairs, capture timestamp, and the derived stable
task name (`task_name()` is modelled as a stored field). -/
structure Request where
  method : HttpMethod
  url : Url
  headers : List (String × String)
  post_data : PostData := {}
  query : List QueryPair := []
  timestamp : Nat := 0
  task_name : String := ""

/-- Python dict insertion: an existing key keeps its position and gets the
new value, a new key is appended. -/
def dictInsert (d : List (String × α)) (k : String) (v : α) : List (String × α) :=
  if (d.lookup k).isSome then d.map (fun p => if p.1 = k then (k, v) else p)
  else d ++ [(k, v)]

/-- Modelled from the spec: `transformer.helpers.zip_kv_pairs` (file not part
of the embedded source) — builds the header mapping
`{p.name: p.value for p in pairs}` from the request's header pairs. -/
def zip_kv_pairs (pairs : List (String × String)) : List (String × String) :=
  pairs.foldl (fun d p => dictInsert d p.1 p.2) []

/-- Python `{**a, **b}`: a copy of `a` into which every binding of `b` is
dict-inserted, in order — so values of `b` win on key conflicts. -/
def dictMerge (a b : List (String × α)) : List (String × α) :=
  b.foldl (fun d p => dictInsert d p.1 p.2) a

/-- `OrderedDict.update` with keyword pairs: each pair dict-inserted in
order (existing keys keep their position, new keys are appended). -/
def odUpdate (d kvs : List (String × α)) : List (String × α) :=
  kvs.foldl (fun acc kv => dictInsert acc kv.1 kv.2) d

/-- `OrderedDict.setdefault k v`: appends `(k, v)` only when `k` is absent. -/
def odSetdefault (d : List (String × α)) (k : String) (v : α) : List (String × α) :=
  if (d.lookup k).isSome then d else d ++ [(k, v)]

/-- A header mapping as a `py.Literal` dict value. -/
def headersVal (hs : List (String × String)) : PyVal :=
  .vDict (hs.map (fun p => (p.1, PyVal.vStr p.2)))

/-- `dataclasses.asdict(q)` for a `QueryPair`: `{"name": ..., "value": ...}`. -/
def QueryPair.asdict (q : QueryPair) : PyVal :=
  .vDict [("name", .vStr q.name), ("value", .vStr q.value)]

/-- `cast(py.Literal, args["params"]).value.extend(qs)`: in-place extension
of the list held by the `params` literal, modelled as re-binding the key.
On a non-list literal value (such as the empty dict `{}`) Python raises
`AttributeError`, since only lists have `.extend`. -/
def extendParamsArg (args : List (String × PyExpr)) (qs : List PyVal) :
    Except PyErr (List (String × PyExpr)) :=
  match args.lookup "params" with
  | some (.literal (.vList xs)) => .ok (dictInsert args "params" (.literal (.vList (xs ++ qs))))
  | some (.literal (.vDict _)) => .error (.attributeError "dict object has no attribute extend")
  | some (.literal _) => .error (.attributeError "object has no attribute extend")
  | some (.fstring _) => .error (.attributeError "FString object has no attribute value")
  | none => .error (.keyError "params")

/-- `req_to_expr`: builds the client call expression from a freshly captured
`Request`.  The base arguments are `url`, `name` (the same expression),
`headers`, `timeout`, `allow_redirects`.  POST merges the Payload
Interpreter output; PUT additionally `setdefault`s `params` to
`py.Literal({})` (the empty dict written in the source) and extends it with
the query pairs run through `_params_from_name_value_dicts`; methods outside
`NOOP_HTTP_METHODS` raise `ValueError(f"unsupported HTTP method: {m!r}")`. -/
def req_to_expr (jsonLoads : String → Option PyVal) (r : Request) :
    Except PyErr FunctionCall := do
  let url : PyExpr := .literal (.vStr r.url.geturl)
  let args : List (String × PyExpr) :=
    [("url", url), ("name", url),
     ("headers", .literal (headersVal (zip_kv_pairs r.headers))),
     ("timeout", .literal (.vInt TIMEOUT)),
     ("allow_redirects", .literal (.vBool false))]
  let args ← match r.method with
    | .POST => do
      let rpd ← RequestsPostData.from_har_post_data jsonLoads r.post_data
      Except.ok (odUpdate args rpd.as_kwargs)
    | .PUT => do
      let rpd ← RequestsPostData.from_har_post_data jsonLoads r.post_data
      let args := odUpdate args rpd.as_kwargs
      let args := odSetdefault args "params" (.literal (.vDict []))
      let qs ← _params_from_name_value_dicts (r.query.map QueryPair.asdict)
      extendParamsArg args qs
    | m =>
      if m ∈ NOOP_HTTP_METHODS then Except.ok args
      else Except.error (.valueError ("unsupported HTTP method: " ++ m.reprName) none)
  return { name := "self.client." ++ r.method.lowerName, named_args := args }

/-- Python `s.startswith(p)`. -/
def pyStartsWith (s p : String) : Bool := p.data.isPrefixOf s.data

/-- Python `s[1:-1]`: drop the first and the last character. -/
def stripFirstLast (s : String) : String := String.mk ((s.data.drop 1).dropLast)

/-- Python `s[2:-1]`: drop the first two characters and the last one. -/
def stripMarker (s : String) : String := String.mk ((s.data.drop 2).dropLast)

/-- The `width` lowercase hex digits of `n`. -/
def hexDigits (n : Nat) : Nat → List Char
  | 0 => []
  | w + 1 => hexDigits (n / 16) w ++ [Nat.digitChar (n % 16)]

/-- One character of Python `repr` for a string, given the chosen quote
delimiter: backslashes, the delimiter, and control characters are escaped
(`\\n`, `\\r`, `\\t`, `\\xHH`); every non-ASCII character is escaped as
`\\xHH` / `\\uHHHH` / `\\UHHHHHHHH`.  CPython keeps *printable* non-ASCII
verbatim and escapes only non-printable non-ASCII (U+00A0, U+2028, ...);
deciding Unicode printability is out of scope here, so this model escapes
the whole non-ASCII range.  The theorems below use `repr` only on printable
ASCII (where CPython behaves exactly as modelled) and on the backslash
escape, so no statement relies on the over-approximated range. -/
def pyReprEscapeChar (q c : Char) : List Char :=
  if c = '\\' then ['\\', '\\']
  else if c = q then ['\\', q]
  else if c = '\n' then ['\\', 'n']
  else if c = '\r' then ['\\', 'r']
  else if c = '\t' then ['\\', 't']
  else if c.toNat < 32 ∨ c.toNat = 127 then '\\' :: 'x' :: hexDigits c.toNat 2
  else if 128 ≤ c.toNat then
    if c.toNat < 256 then '\\' :: 'x' :: hexDigits c.toNat 2
    else if c.toNat < 65536 then '\\' :: 'u' :: hexDigits c.toNat 4
    else '\\' :: 'U' :: hexDigits c.toNat 8
  else [c]

/-- Python `repr(s)` for a string `s`: single-quote delimiters, except that a
string containing `'` but no `"` is double-quoted; characters are escaped by
`pyReprEscapeChar`. -/
def pyRepr (s : String) : String :=
  let q : Char := if s.data.contains '\'' && !(s.data.contains '"') then '"' else '\''
  String.mk (q :: (s.data.map (pyReprEscapeChar q)).flatten ++ [q])

/-- The `LocustRequest` named tuple: all parameters for the request
performed by the Locust client object. -/
structure LocustRequest where
  method : HttpMethod
  url : String
  headers : List (String × String)
  post_data : PostData := {}
  query : List QueryPair := []

/-- `LocustRequest.from_request`: captures a `Request`, storing
`repr(r.url.geturl())` as the URL text and `zip_kv_pairs(r.headers)` as the
header mapping. -/
def LocustRequest.from_request (r : Request) : LocustRequest :=
  { method := r.method
    url := pyRepr r.url.geturl
    headers := zip_kv_pairs r.headers
    post_data := r.post_data
    query := r.query }

/-- `lreq_to_expr`: builds the client call expression from a legacy
`LocustRequest`.  A URL text starting with `f` becomes
`py.FString(url[2:-1])`, any other URL text becomes `py.Literal(url[1:-1])`;
the rest is identical to `req_to_expr`. -/
def lreq_to_expr (jsonLoads : String → Option PyVal) (lr : LocustRequest) :
    Except PyErr FunctionCall := do
  let url : PyExpr :=
    if pyStartsWith lr.url "f" then .fstring (stripMarker lr.url)
    else .literal (.vStr (stripFirstLast lr.url))
  let args : List (String × PyExpr) :=
    [("url", url), ("name", url),
     ("headers", .literal (headersVal lr.headers)),
     ("timeout", .literal (.vInt TIMEOUT)),
     ("allow_redirects", .literal (.vBool false))]
  let args ← match lr.method with
    | .POST => do
      let rpd ← RequestsPostData.from_har_post_data jsonLoads lr.post_data
      Except.ok (odUpdate args rpd.as_kwargs)
    | .PUT => do
      let rpd ← RequestsPostData.from_har_post_data jsonLoads lr.post_data
      let args := odUpdate args rpd.as_kwargs
      let args := odSetdefault args "params" (.literal (.vDict []))
      let qs ← _params_from_name_value_dicts (lr.query.map QueryPair.asdict)
      extendParamsArg args qs
    | m =>
      if m ∈ NOOP_HTTP_METHODS then Except.ok args
      else Except.error (.valueError ("unsupported HTTP method: " ++ m.reprName) none)
  return { name := "self.client." ++ lr.method.lowerName, named_args := args }

/-- The resolution target captured by the deferred-binding node built in
`Task2.from_task`: either the legacy override or the task's own request. -/
inductive ViewTarget where
  | locust (lr : LocustRequest)
  | request (r : Request)

/-- Modelled from the spec: the `py.ExpressionView` deferred-binding node —
a display label and a capture of which object to read at resolution time
(the converter, `lreq_to_expr` or `req_to_expr`, is determined by the kind
of the captured target in this code). -/
structure ExpressionView where
  name : String
  target : ViewTarget

/-- Modelled from the spec: the statement nodes of `transformer.python` used
by `Task2.from_task` — opaque (uninterpreted) code blocks and the assignment
of a variable to a deferred-binding expression. -/
inductive Statement where
  | opaqueBlock (code : String)
  | assignment (lhs : String) (rhs : ExpressionView)

/-- The legacy `Task` named tuple: one step of doing something on a website. -/
structure Task where
  name : String
  request : Request
  locust_request : Option LocustRequest := none
  locust_preprocessing : List String := []
  locust_postprocessing : List String := []
  global_code_blocks : List (String × List String) := []

/-- The sort key of both `from_requests` pipelines:
`sorted(requests, key=lambda r: r.timestamp)` (a stable sort). -/
def reqLe (a b : Request) : Bool := decide (a.timestamp ≤ b.timestamp)

/-- `Task.from_requests`: sorts the requests by ascending timestamp (Python
`sorted` is stable), drops the blacklisted ones, and yields one `Task` per
surviving request.  The external blacklist predicate is a parameter. -/
def Task.from_requests (on_blacklist : String → Bool) (requests : List Request) :
    List Task :=
  ((requests.mergeSort reqLe).filter (fun r => !on_blacklist r.url.netloc)).map
    (fun req => { name := req.task_name, request := req })

/-- `Task.inject_headers`: materializes the override from the request when
none exists yet, merges the extra headers over its header mapping
(`{**original.headers, **headers}`, new values win), and returns the new
`Task` value (`_replace` — the argument task is unchanged). -/
def Task.inject_headers (t : Task) (headers : List (String × String)) : Task :=
  let original_locust_request :=
    match t.locust_request with
    | none => LocustRequest.from_request t.request
    | some lr => lr
  let new_locust_request :=
    { original_locust_request with
        headers := dictMerge original_locust_request.headers headers }
  { t with locust_request := some new_locust_request }

/-- `Task.replace_url`: materializes the override from the request when none
exists yet, replaces only its URL field, and returns the new `Task` value. -/
def Task.replace_url (t : Task) (url : String) : Task :=
  let original_locust_request :=
    match t.locust_request with
    | none => LocustRequest.from_request t.request
    | some lr => lr
  let new_locust_request := { original_locust_request with url := url }
  { t with locust_request := some new_locust_request }

/-- The value passed for `statements` when a `Task2` is constructed:
`from_requests` passes the Ellipsis literal `...`, other call sites pass a
sequence. -/
inductive StatementsInit where
  | ellipsis
  | ofSeq (l : List Statement)

/-- Python `list(x)` as applied by `Task2.__post_init__` to the `statements`
argument: iterating the Ellipsis object raises `TypeError`. -/
def listOfInit : StatementsInit → Except PyErr (List Statement)
  | .ellipsis => .error (.typeError "ellipsis object is not iterable")
  | .ofSeq l => .ok l

/-- The target `Task2` dataclass. -/
structure Task2 where
  name : String
  request : Request
  statements : List Statement := []
  global_code_blocks : List (String × List String) := []

/-- Constructing a `Task2` runs `__post_init__`, which normalizes
`statements` through `list(...)` — so construction is fallible when the
Ellipsis placeholder is passed. -/
def Task2.mkChecked (name : String) (request : Request) (init : StatementsInit) :
    Except PyErr Task2 := do
  let stmts ← listOfInit init
  return { name := name, request := request, statements := stmts }

/-- `Task2.from_requests`: sorts by ascending timestamp, drops blacklisted
hosts, and constructs one `Task2` per surviving request — passing the
Ellipsis placeholder `statements=...` to the constructor, exactly as the
source does.  The consumer-visible behavior of the generator is the list of
yielded tasks, or the first exception raised while producing one. -/
def Task2.from_requests (on_blacklist : String → Bool) (requests : List Request) :
    Except PyErr (List Task2) :=
  ((requests.mergeSort reqLe).filter (fun r => !on_blacklist r.url.netloc)).mapM
    (fun req => Task2.mkChecked req.task_name req StatementsInit.ellipsis)

/-- `Task2.from_task`: converts a legacy `Task`, wrapping its pre- and
post-processing fragments as opaque blocks around the assignment of
`response` to the deferred-binding expression; the binding targets the
legacy override when the task carries one (a populated named tuple is always
truthy), else the new task's own `request` field. -/
def Task2.from_task (task : Task) : Task2 :=
  let expr_view : ExpressionView :=
    match task.locust_request with
    | some lr => { name := "this task's request field", target := .locust lr }
    | none => { name := "this task's request field", target := .request task.request }
  { name := task.name
    request := task.request
    statements :=
      (task.locust_preprocessing.map Statement.opaqueBlock) ++
      [Statement.assignment "response" expr_view] ++
      (task.locust_postprocessing.map Statement.opaqueBlock) }

/-! ## Lookup lemmas for the dict / OrderedDict model -/

theorem lookup_cons_ne (tl : List (String × α)) (a k : String) (b : α) (h : k ≠ a) :
    ((a, b) :: tl).lookup k = tl.lookup k := by
  rw [List.lookup_cons, beq_false_of_ne h]

theorem lookup_map_update (d : List (String × α)) (k' k : String) (v : α) :
    (d.map (fun p => if p.1 = k' then (k', v) else p)).lookup k =
      if k = k' then (if (d.lookup k').isSome then some v else none)
      else d.lookup k := by
  induction d with
  | nil => simp
  | cons p tl ih =>
    obtain ⟨a, b⟩ := p
    have h1 : ((a, b) : String × α).1 = a := rfl
    by_cases hak : a = k'
    · subst hak
      rw [List.map_cons, if_pos h1]
      by_cases hk : k = a
      · subst hk
        rw [List.lookup_cons_self, if_pos rfl, List.lookup_cons_self]
        simp
      · rw [lookup_cons_ne _ _ _ _ hk, lookup_cons_ne _ _ _ _ hk, ih, if_neg hk, if_neg hk]
    · rw [List.map_cons, if_neg (h1 ▸ hak)]
      by_cases hk : k = a
      · subst hk
        rw [List.lookup_cons_self, List.lookup_cons_self, if_neg hak]
      · rw [lookup_cons_ne _ _ _ _ hk, lookup_cons_ne _ _ _ _ hk, ih]
        by_cases hkk : k = k'
        · subst hkk
          rw [if_pos rfl, if_pos rfl, lookup_cons_ne _ _ _ _ (fun hh => hak hh.symm)]
        · rw [if_neg hkk, if_neg hkk]

theorem lookup_dictInsert (d : List (String × α)) (k' k : String) (v : α) :
    (dictInsert d k' v).lookup k = if k = k' then some v else d.lookup k := by
  unfold dictInsert
  split
  next h =>
    rw [lookup_map_update]
    by_cases hk : k = k' <;> simp [hk, h]
  next h =>
    rw [List.lookup_append]
    rw [Option.not_isSome_iff_eq_none] at h
    by_cases hk : k = k'
    · subst hk
      rw [h, Option.none_or, List.lookup_cons_self, if_pos rfl]
    · rw [lookup_cons_ne _ _ _ _ hk, List.lookup_nil, Option.or_none, if_neg hk]

theorem lookup_odUpdate_of_ne (kvs : List (String × α)) (d : List (String × α))
    (k : String) (h : ∀ p ∈ kvs, p.1 ≠ k) :
    (odUpdate d kvs).lookup k = d.lookup k := by
  induction kvs generalizing d with
  | nil => rfl
  | cons p rest ih =>
    have hstep : odUpdate d (p :: rest) = odUpdate (dictInsert d p.1 p.2) rest := rfl
    rw [hstep, ih _ (fun q hq => h q (List.mem_cons_of_mem _ hq)), lookup_dictInsert,
      if_neg (fun hh => h p (List.mem_cons_self _ _) hh.symm)]

theorem lookup_odSetdefault_of_ne (d : List (String × α)) (k' k : String) (v : α)
    (h : k ≠ k') :
    (odSetdefault d k' v).lookup k = d.lookup k := by
  unfold odSetdefault
  split
  · rfl
  · rw [List.lookup_append, lookup_cons_ne _ _ _ _ h, List.lookup_nil, Option.or_none]

theorem mem_optEntry {x : Option PyExpr} {k : String} {p : String × PyExpr}
    (hp : p ∈ (match x with | some v => [(k, v)] | none => ([] : List (String × PyExpr)))) :
    p.1 = k := by
  cases x with
  | none => cases hp
  | some v =>
    rw [List.mem_singleton] at hp
    rw [hp]

theorem as_kwargs_keys (rpd : RequestsPostData) :
    ∀ p ∈ rpd.as_kwargs, p.1 = "data" ∨ p.1 = "params" ∨ p.1 = "json" := by
  intro p hp
  unfold RequestsPostData.as_kwargs at hp
  rcases List.mem_append.mp hp with h12 | h3
  · rcases List.mem_append.mp h12 with h1 | h2
    · exact Or.inl (mem_optEntry h1)
    · exact Or.inr (Or.inl (mem_optEntry h2))
  · exact Or.inr (Or.inr (mem_optEntry h3))

theorem lookup_dictMerge (b a : List (String × α)) (k : String) :
    (dictMerge a b).lookup k = (b.reverse.lookup k).or (a.lookup k) := by
  induction b generalizing a with
  | nil => simp [dictMerge]
  | cons p rest ih =>
    obtain ⟨pk, pv⟩ := p
    have hstep : dictMerge a ((pk, pv) :: rest) = dictMerge (dictInsert a pk pv) rest := rfl
    rw [hstep, ih, List.reverse_cons, List.lookup_append, lookup_dictInsert]
    by_cases hk : k = pk
    · subst hk
      rw [List.lookup_cons_self, Option.or_assoc, Option.or_some, if_pos rfl]
    · rw [lookup_cons_ne _ _ _ _ hk, List.lookup_nil, Option.or_none, if_neg hk]

/-! ## Concrete inputs used by closed theorems and witnesses -/

/-- A `json.loads` stand-in that accepts no text (no claim below depends on
a particular JSON grammar through it). -/
def jl0 : String → Option PyVal := fun _ => none

/-- A `json.loads` stand-in that decodes the text `null` and rejects
everything else. -/
def jlNull : String → Option PyVal := fun s => if s = "null" then some .vNone else none

/-- A PUT request whose payload is accepted by the Payload Interpreter but
yields no `params` (plain-text body), with one query pair. -/
def putNoParams : Request :=
  { method := .PUT
    url := { geturl := "http://example.com/a", netloc := "example.com" }
    headers := []
    post_data := { mimeType := some "text/plain", text := some "x" }
    query := [{ name := "page", value := "2" }] }

/-- A PUT request whose payload yields both `data` and `params`, with one
query pair. -/
def putWithParams : Request :=
  { method := .PUT
    url := { geturl := "http://example.com/a", netloc := "example.com" }
    headers := []
    post_data := { mimeType := some "application/x-www-form-urlencoded"
                   text := some "a=1"
                   params := some (.vList [.vDict [("name", .vStr "a"), ("value", .vStr "1")]]) }
    query := [{ name := "page", value := "2" }] }

/-! ## C1 -/

/-- C1 (code bug): the claim says a PUT whose accepted payload yields no
`params` first initializes the key to an empty literal *list* and then
appends the query pairs, succeeding.  The source instead writes
`args.setdefault("params", py.Literal({}))` — an empty *dict* — and the
subsequent `.value.extend(...)` raises `AttributeError`, so building the
call expression fails for every such PUT request.  When the payload does
yield `params`, the query pairs are appended after the payload-derived
pairs, in order, as the claim describes. -/
theorem C1_put_empty_params_literal_is_dict_and_extend_crashes :
    req_to_expr jl0 putNoParams =
      .error (.attributeError "dict object has no attribute extend") ∧
    (∃ fc, req_to_expr jl0 putWithParams = .ok fc ∧
      fc.named_args.lookup "params" =
        some (.literal (.vList
          [.vTuple [.vBytes "a", .vBytes "1"],
           .vTuple [.vBytes "page", .vBytes "2"]]))) :=
  ⟨rfl, ⟨_, rfl, rfl⟩⟩

/-! ## C2 -/

/-- A non-blacklisted GET request for pipeline inputs. -/
def getReq : Request :=
  { method := .GET
    url := { geturl := "http://example.com/a", netloc := "example.com" }
    headers := []
    timestamp := 1
    task_name := "GET_example_com_a" }

/-- C2 (code bug): the claim says `Task2.from_requests` yields one `Task2`
with an empty statement list per surviving request, raising no exception.
The source passes the Ellipsis literal (`statements=...`) to the
constructor, whose `__post_init__` runs `list(self.statements)` — so the
generator raises `TypeError` while producing the first surviving task, and
only an input whose every request is blacklisted yields (the empty) output. -/
theorem C2_from_requests_raises_TypeError_on_first_survivor :
    Task2.from_requests (fun _ => false) [getReq] =
      .error (.typeError "ellipsis object is not iterable") ∧
    Task2.from_requests (fun _ => true) [getReq] = .ok [] := by
  constructor <;>
    simp [Task2.from_requests, Task2.mkChecked, listOfInit, List.mapM, List.mapM.loop,
      pure, Except.pure, bind, Except.bind]

/-! ## C8 -/

/-- C8 (confirmed): `Task2.from_task` keeps the legacy task's name and
request, and its statement sequence is each pre-processing fragment as an
opaque block in order, then the assignment of `response` to the
deferred-binding expression labeled "this task's request field", then each
post-processing fragment as an opaque block in order; the binding's target
is the legacy override exactly when the task carried one at conversion
time, else the new task's own `request` field. -/
theorem C8_from_task_statement_sequence (task : Task) :
    (Task2.from_task task).name = task.name ∧
    (Task2.from_task task).request = task.request ∧
    (Task2.from_task task).global_code_blocks = [] ∧
    (Task2.from_task task).statements =
      (task.locust_preprocessing.map Statement.opaqueBlock) ++
      [Statement.assignment "response"
        { name := "this task's request field"
          target :=
            match task.locust_request with
            | some lr => ViewTarget.locust lr
            | none => ViewTarget.request task.request }] ++
      (task.locust_postprocessing.map Statement.opaqueBlock) := by
  refine ⟨rfl, rfl, rfl, ?_⟩
  cases h : task.locust_request <;> simp [Task2.from_task, h]

/-! ## C4 -/

/-- C4 (confirmed): for GET/OPTIONS/DELETE the argument map holds exactly
the five base keys — no payload key (`data`, `params`, `json`) appears, no
matter what payload descriptor the request carries; for any method outside
{GET, OPTIONS, DELETE, POST, PUT} the builder fails with
`ValueError(f"unsupported HTTP method: {m!r}")`, which names the offending
method. -/
theorem C4_noop_methods_bare_args_and_others_rejected
    (jsonLoads : String → Option PyVal) (r : Request) :
    (r.method ∈ NOOP_HTTP_METHODS →
      (req_to_expr jsonLoads r).map (fun fc => fc.named_args.map Prod.fst) =
        .ok ["url", "name", "headers", "timeout", "allow_redirects"]) ∧
    (r.method ∉ NOOP_HTTP_METHODS → r.method ≠ .POST → r.method ≠ .PUT →
      req_to_expr jsonLoads r =
        .error (.valueError ("unsupported HTTP method: " ++ r.method.reprName) none)) := by
  constructor
  · intro h
    rcases r with ⟨m, u, hs, pd, q, ts, tn⟩
    cases m <;>
      simp_all [NOOP_HTTP_METHODS, req_to_expr, Except.map, bind, Except.bind,
        pure, Except.pure]
  · intro h hpost hput
    rcases r with ⟨m, u, hs, pd, q, ts, tn⟩
    cases m <;>
      simp_all [NOOP_HTTP_METHODS, req_to_expr, Except.map, bind, Except.bind,
        pure, Except.pure]

/-- A GET request carrying a (well-formed) payload descriptor, for the C4
witness: the descriptor is ignored. -/
def getWithPayload : Request :=
  { method := .GET
    url := { geturl := "http://example.com/a", netloc := "example.com" }
    headers := [("Accept", "text/html")]
    post_data := { mimeType := some "application/x-www-form-urlencoded"
                   text := some "a=1"
                   params := some (.vList [.vDict [("name", .vStr "a"), ("value", .vStr "1")]]) } }

/-- A PATCH request, for the C4 witness. -/
def patchReq : Request :=
  { method := .PATCH
    url := { geturl := "http://example.com/a", netloc := "example.com" }
    headers := [] }

/-- Witness for C4 at a GET request that carries a payload descriptor, and
at a PATCH request. -/
theorem C4_witness :
    (req_to_expr jl0 getWithPayload).map (fun fc => fc.named_args.map Prod.fst) =
      .ok ["url", "name", "headers", "timeout", "allow_redirects"] ∧
    req_to_expr jl0 patchReq =
      .error (.valueError ("unsupported HTTP method: " ++ HttpMethod.reprName .PATCH) none) :=
  ⟨(C4_noop_methods_bare_args_and_others_rejected jl0 getWithPayload).1 (by decide),
   (C4_noop_methods_bare_args_and_others_rejected jl0 patchReq).2
     (by decide) (by decide) (by decide)⟩

/-! ## C10 -/

/-- The query pairs of a request always pass
`_params_from_name_value_dicts` (their `name`/`value` are strings). -/
theorem params_from_query_ok (q : List QueryPair) :
    _params_from_name_value_dicts (q.map QueryPair.asdict) =
      .ok (q.map (fun qp => PyVal.vTuple [.vBytes qp.name, .vBytes qp.value])) := by
  induction q with
  | nil => rfl
  | cons qp rest ih =>
    simp [_params_from_name_value_dicts, QueryPair.asdict, pyGetItem, pyEncode,
      List.lookup_cons, bind, Except.bind, pure, Except.pure, ih]

/-- A successful `extendParamsArg` only rewrites the `params` binding. -/
theorem lookup_extendParamsArg_ne (args : List (String × PyExpr)) (qs : List PyVal)
    (res : List (String × PyExpr)) (k : String) (hk : k ≠ "params")
    (h : extendParamsArg args qs = .ok res) : res.lookup k = args.lookup k := by
  unfold extendParamsArg at h
  split at h <;>
    first
    | (cases h; rw [lookup_dictInsert, if_neg hk])
    | exact Except.noConfusion h

/-- Every key of `as_kwargs` differs from `url`. -/
theorem as_kwargs_keys_ne_url (rpd : RequestsPostData) :
    ∀ p ∈ rpd.as_kwargs, p.1 ≠ "url" := by
  intro p hp
  rcases as_kwargs_keys rpd p hp with h | h | h <;> rw [h] <;> decide

/-- C10 (confirmed): whenever `lreq_to_expr` succeeds, the `url` argument of
the produced call is `py.FString(url[2:-1])` when the stored URL text starts
with the `f` marker, and `py.Literal(url[1:-1])` — first and last character
stripped unconditionally — otherwise. -/
theorem C10_lreq_url_marker_stripping (jsonLoads : String → Option PyVal)
    (lr : LocustRequest) (fc : FunctionCall)
    (h : lreq_to_expr jsonLoads lr = .ok fc) :
    fc.named_args.lookup "url" =
      some (if pyStartsWith lr.url "f" then PyExpr.fstring (stripMarker lr.url)
            else PyExpr.literal (.vStr (stripFirstLast lr.url))) := by
  rcases lr with ⟨m, u, hs, pd, q⟩
  unfold lreq_to_expr at h
  cases m <;> dsimp only at h
  case GET =>
    rw [if_pos (show HttpMethod.GET ∈ NOOP_HTTP_METHODS by decide)] at h
    dsimp only [bind, Except.bind, pure, Except.pure] at h
    cases h
    exact List.lookup_cons_self
  case OPTIONS =>
    rw [if_pos (show HttpMethod.OPTIONS ∈ NOOP_HTTP_METHODS by decide)] at h
    dsimp only [bind, Except.bind, pure, Except.pure] at h
    cases h
    exact List.lookup_cons_self
  case DELETE =>
    rw [if_pos (show HttpMethod.DELETE ∈ NOOP_HTTP_METHODS by decide)] at h
    dsimp only [bind, Except.bind, pure, Except.pure] at h
    cases h
    exact List.lookup_cons_self
  case PATCH =>
    rw [if_neg (show ¬ HttpMethod.PATCH ∈ NOOP_HTTP_METHODS by decide)] at h
    dsimp only [bind, Except.bind] at h
    exact Except.noConfusion h
  case HEAD =>
    rw [if_neg (show ¬ HttpMethod.HEAD ∈ NOOP_HTTP_METHODS by decide)] at h
    dsimp only [bind, Except.bind] at h
    exact Except.noConfusion h
  case POST =>
    simp only [bind, Except.bind, pure, Except.pure] at h
    split at h
    · exact Except.noConfusion h
    next rpd heq =>
      cases h
      rw [lookup_odUpdate_of_ne _ _ _ (as_kwargs_keys_ne_url rpd)]
      exact List.lookup_cons_self
  case PUT =>
    rw [params_from_query_ok] at h
    simp only [bind, Except.bind, pure, Except.pure] at h
    split at h
    · exact Except.noConfusion h
    next rpd heq =>
      split at h
      · exact Except.noConfusion h
      next res heq2 =>
        cases h
        rw [lookup_extendParamsArg_ne _ _ _ _ (by decide) heq2,
          lookup_odSetdefault_of_ne _ _ _ _ (by decide),
          lookup_odUpdate_of_ne _ _ _ (as_kwargs_keys_ne_url rpd)]
        exact List.lookup_cons_self

/-- A legacy descriptor whose URL text carries the `f` template marker. -/
def lrF : LocustRequest :=
  { method := .GET, url := "f'http://x/a'", headers := [] }

/-- The call built from `lrF`. -/
def fcF : FunctionCall :=
  { name := "self.client.get"
    named_args :=
      [("url", .fstring "http://x/a"), ("name", .fstring "http://x/a"),
       ("headers", .literal (.vDict [])),
       ("timeout", .literal (.vInt 30)),
       ("allow_redirects", .literal (.vBool false))] }

/-- A legacy descriptor whose URL text is *not* source-quoted (as installed
by `replace_url`): the first and last characters are stripped anyway. -/
def lrPlain : LocustRequest :=
  { method := .GET, url := "http://x/a", headers := [] }

/-- The call built from `lrPlain`: its URL literal is the text with the
first and last characters cut off. -/
def fcPlain : FunctionCall :=
  { name := "self.client.get"
    named_args :=
      [("url", .literal (.vStr "ttp://x/")), ("name", .literal (.vStr "ttp://x/")),
       ("headers", .literal (.vDict [])),
       ("timeout", .literal (.vInt 30)),
       ("allow_redirects", .literal (.vBool false))] }

/-- Witness for C10 at an `f`-marked URL and at an unquoted URL. -/
theorem C10_witness :
    (lreq_to_expr jl0 lrF = .ok fcF ∧
      fcF.named_args.lookup "url" =
        some (if pyStartsWith lrF.url "f" then PyExpr.fstring (stripMarker lrF.url)
              else PyExpr.literal (.vStr (stripFirstLast lrF.url)))) ∧
    (lreq_to_expr jl0 lrPlain = .ok fcPlain ∧
      fcPlain.named_args.lookup "url" =
        some (if pyStartsWith lrPlain.url "f" then PyExpr.fstring (stripMarker lrPlain.url)
              else PyExpr.literal (.vStr (stripFirstLast lrPlain.url)))) :=
  ⟨⟨rfl, C10_lreq_url_marker_stripping jl0 lrF fcF rfl⟩,
   ⟨rfl, C10_lreq_url_marker_stripping jl0 lrPlain fcPlain rfl⟩⟩

/-! ## C9 -/

/-- The override the mutation operations work on: the existing one when the
task already carries one, else one freshly derived from the originating
request. -/
def Task.materializedOverride (t : Task) : LocustRequest :=
  t.locust_request.getD (LocustRequest.from_request t.request)

/-- The override after a header injection over `lr`. -/
def LocustRequest.withMergedHeaders (lr : LocustRequest)
    (headers : List (String × String)) : LocustRequest :=
  { lr with headers := dictMerge lr.headers headers }

/-- The override after a URL replacement on `lr`. -/
def LocustRequest.withUrl (lr : LocustRequest) (url : String) : LocustRequest :=
  { lr with url := url }

/-- C9 (confirmed): `inject_headers` and `replace_url` are pure functions of
the task value — each returns a copy of the task whose only changed field is
`locust_request` (so the argument task is never mutated, and name, request,
processing fragments and global code blocks are all preserved); the header
merge is right-biased (`{**original.headers, **headers}` — for any key the
new mapping's binding wins, else the original's is kept); the override is
derived from the originating request only when none exists yet, and a
second mutation further modifies the already-materialized override instead
of re-deriving it. -/
theorem C9_mutations_pure_rightbiased_materialize_once
    (t : Task) (headers : List (String × String)) (url : String) :
    (t.inject_headers headers =
      { t with locust_request := some (t.materializedOverride.withMergedHeaders headers) }) ∧
    (t.replace_url url =
      { t with locust_request := some (t.materializedOverride.withUrl url) }) ∧
    (∀ k : String,
      (dictMerge t.materializedOverride.headers headers).lookup k =
        ((headers.reverse.lookup k).or (t.materializedOverride.headers.lookup k))) ∧
    ((t.replace_url url).inject_headers headers =
      { t with locust_request := some ((t.materializedOverride.withUrl url).withMergedHeaders headers) }) := by
  refine ⟨?_, ?_, fun k => lookup_dictMerge _ _ _, ?_⟩ <;>
    cases ht : t.locust_request <;>
      simp [Task.inject_headers, Task.replace_url, Task.materializedOverride, ht,
        LocustRequest.withMergedHeaders, LocustRequest.withUrl]

/-! ## C5 and C6: the Payload Interpreter -/

/-- `_extract_text` leaves `data` unchanged in the JSON branch and leaves
`json` unchanged in the non-JSON branch. -/
theorem _extract_text_ok_fields (jsonLoads : String → Option PyVal) (mime : String)
    (pd : PostData) (rpd0 r : RequestsPostData)
    (h : _extract_text jsonLoads mime pd rpd0 = .ok r) :
    (mime = JSON_MIME_TYPE → r.data = rpd0.data) ∧
    (mime ≠ JSON_MIME_TYPE → r.json = rpd0.json) := by
  unfold _extract_text at h
  dsimp only at h
  split at h
  next hm =>
    split at h
    · exact Except.noConfusion h
    · split at h
      next v hv =>
        cases h
        exact ⟨fun _ => rfl, fun hn => absurd hm hn⟩
      · exact Except.noConfusion h
  next hm =>
    split at h
    · cases h
      exact ⟨fun hmm => absurd hmm hm, fun _ => rfl⟩
    · cases h
      exact ⟨fun hmm => absurd hmm hm, fun _ => rfl⟩

/-- C5 (corrected): the Payload Interpreter fails with the wrapped
`InvalidPayload` error when the MIME-type field is absent, and when neither
body text nor a parameters list is present; and every *ValueError-class*
failure reaching the public entry point is re-raised as the single wrapper
carrying the descriptor and the original cause — but a failure that is not
a `ValueError` (such as the `AttributeError` raised by `.encode()` on a
non-string params name or value, which the
`except (KeyError, UnicodeEncodeError, TypeError)` clause does not catch)
escapes the entry point unwrapped. -/
theorem C5_invalid_payload_failures (jsonLoads : String → Option PyVal) (pd : PostData) :
    (pd.mimeType = none →
      RequestsPostData.from_har_post_data jsonLoads pd =
        .error (.invalidHar pd (.valueError "missing mimeType field" none))) ∧
    (∀ m, pd.mimeType = some m → pd.text = none → pd.params = none →
      RequestsPostData.from_har_post_data jsonLoads pd =
        .error (.invalidHar pd (.valueError "should contain text or params" none))) ∧
    (∀ e, RequestsPostData.from_har_post_data jsonLoads pd = .error e →
      (∃ c, e = .invalidHar pd c ∧ c.isValueErrorClass = true) ∨
        e.isValueErrorClass = false) := by
  refine ⟨?_, ?_, ?_⟩
  · intro hm
    rcases pd with ⟨mt, tx, pr⟩
    cases hm
    rfl
  · intro m hm ht hp
    rcases pd with ⟨mt, tx, pr⟩
    cases hm
    cases ht
    cases hp
    rfl
  · intro e h
    unfold RequestsPostData.from_har_post_data at h
    split at h
    · exact Except.noConfusion h
    · rename_i e2 heq
      split at h
      · rename_i hve
        cases h
        exact Or.inl ⟨e2, rfl, hve⟩
      · rename_i hve
        cases h
        simp only [Bool.not_eq_true] at hve
        exact Or.inr hve

/-- A descriptor with no MIME type. -/
def pdNoMime : PostData := { text := some "x" }

/-- A descriptor with a MIME type but neither text nor params. -/
def pdNothing : PostData := { mimeType := some "text/plain" }

/-- A descriptor whose params list holds a non-string `name` (an int):
indexing succeeds, `.encode()` raises `AttributeError`, and that exception
is not in the caught tuple. -/
def pdIntName : PostData :=
  { mimeType := some "application/x-www-form-urlencoded"
    params := some (.vList [.vDict [("name", .vInt 1), ("value", .vStr "2")]]) }

/-- Counterexample to C5 as stated: at `pdIntName` the public entry point
raises a bare `AttributeError`, not a single wrapping `InvalidPayload`. -/
theorem C5_counterexample_attributeError_escapes :
    RequestsPostData.from_har_post_data jl0 pdIntName =
      .error (.attributeError "int object has no attribute encode") ∧
    (PyErr.attributeError "int object has no attribute encode").isInvalidHar = false :=
  ⟨rfl, rfl⟩

/-- Witness for C5 at descriptors that exercise each clause. -/
theorem C5_witness :
    (RequestsPostData.from_har_post_data jl0 pdNoMime =
      .error (.invalidHar pdNoMime (.valueError "missing mimeType field" none))) ∧
    (RequestsPostData.from_har_post_data jl0 pdNothing =
      .error (.invalidHar pdNothing (.valueError "should contain text or params" none))) ∧
    ((∃ c, PyErr.attributeError "int object has no attribute encode" = .invalidHar pdIntName c ∧
        c.isValueErrorClass = true) ∨
      (PyErr.attributeError "int object has no attribute encode").isValueErrorClass = false) :=
  ⟨(C5_invalid_payload_failures jl0 pdNoMime).1 rfl,
   (C5_invalid_payload_failures jl0 pdNothing).2.1 "text/plain" rfl rfl rfl,
   (C5_invalid_payload_failures jl0 pdIntName).2.2 _ rfl⟩

/-- C6 (confirmed): for MIME type exactly `application/json` the body text
is mandatory (wrapped `InvalidPayload` when absent and when JSON decoding
fails), the decoded value becomes the `json` output exactly while `data`
stays unset, and — over all accepted descriptors of any MIME type — never
are both `data` and `json` set. -/
theorem C6_json_payload_exact_and_exclusive (jsonLoads : String → Option PyVal)
    (pd : PostData) :
    (pd.mimeType = some JSON_MIME_TYPE →
      (pd.text = none →
        ∃ c, RequestsPostData.from_har_post_data jsonLoads pd = .error (.invalidHar pd c)) ∧
      (∀ s, pd.text = some s → jsonLoads s = none →
        RequestsPostData.from_har_post_data jsonLoads pd =
          .error (.invalidHar pd
            (.valueError "unreadable JSON from field text" (some (.jsonDecodeError s))))) ∧
      (∀ s v rpd, pd.text = some s → jsonLoads s = some v →
        RequestsPostData.from_har_post_data jsonLoads pd = .ok rpd →
        rpd.json = some (.literal v) ∧ rpd.data = none)) ∧
    (∀ rpd, RequestsPostData.from_har_post_data jsonLoads pd = .ok rpd →
      rpd.data = none ∨ rpd.json = none) := by
  constructor
  · intro hm
    rcases pd with ⟨mt, tx, pr⟩
    cases hm
    refine ⟨?_, ?_, ?_⟩
    · intro ht
      cases ht
      cases pr with
      | none => exact ⟨.valueError "should contain text or params" none, rfl⟩
      | some p =>
        exact ⟨.valueError "missing text field for application/json content" none, rfl⟩
    · intro s hs hjs
      cases hs
      unfold RequestsPostData.from_har_post_data _from_har_post_data _extract_text
      dsimp only [bind, Except.bind, pure, Except.pure]
      rw [if_pos rfl, hjs]
      rfl
    · intro s v rpd hs hjs h
      cases hs
      unfold RequestsPostData.from_har_post_data at h
      split at h
      · rename_i rpd2 heq
        cases h
        unfold _from_har_post_data _extract_text at heq
        dsimp only [bind, Except.bind, pure, Except.pure] at heq
        rw [if_neg (show ¬ (((some s : Option String).isNone && pr.isNone) = true) from by simp),
          if_pos rfl, hjs] at heq
        dsimp only at heq
        split at heq
        · cases heq
          exact ⟨rfl, rfl⟩
        · cases heq
          exact ⟨rfl, rfl⟩
        · split at heq <;> exact Except.noConfusion heq
      · split at h <;> exact Except.noConfusion h
  · intro rpd h
    unfold RequestsPostData.from_har_post_data at h
    split at h
    · rename_i rpd2 heq
      cases h
      rcases pd with ⟨mt, tx, pr⟩
      unfold _from_har_post_data at heq
      cases mt with
      | none => exact Except.noConfusion heq
      | some m =>
        simp only [bind, Except.bind, pure, Except.pure] at heq
        split at heq
        · exact Except.noConfusion heq
        · split at heq
          · exact Except.noConfusion heq
          · rename_i r1 hex
            have hfields := _extract_text_ok_fields jsonLoads m ⟨some m, tx, pr⟩ {} r1 hex
            by_cases hm : m = JSON_MIME_TYPE
            · have hd : r1.data = none := hfields.1 hm
              split at heq
              · cases heq
                exact Or.inl hd
              · cases heq
                exact Or.inl hd
              · split at heq <;> exact Except.noConfusion heq
            · have hj : r1.json = none := hfields.2 hm
              split at heq
              · cases heq
                exact Or.inr hj
              · cases heq
                exact Or.inr hj
              · split at heq <;> exact Except.noConfusion heq
    · split at h <;> exact Except.noConfusion h

/-- A JSON-MIME descriptor without body text (params present, so the
text-or-params check passes and the JSON branch itself rejects it). -/
def pdJsonNoText : PostData :=
  { mimeType := some JSON_MIME_TYPE, params := some (.vList []) }

/-- A JSON-MIME descriptor whose body text does not decode. -/
def pdJsonBad : PostData := { mimeType := some JSON_MIME_TYPE, text := some "oops" }

/-- A JSON-MIME descriptor whose body text decodes (to `null`). -/
def pdJsonGood : PostData := { mimeType := some JSON_MIME_TYPE, text := some "null" }

/-- The interpreter output for `pdJsonGood`. -/
def rpdJsonGood : RequestsPostData := { json := some (.literal .vNone) }

/-- Witness for C6 at concrete JSON descriptors. -/
theorem C6_witness :
    (∃ c, RequestsPostData.from_har_post_data jlNull pdJsonNoText =
      .error (.invalidHar pdJsonNoText c)) ∧
    (RequestsPostData.from_har_post_data jlNull pdJsonBad =
      .error (.invalidHar pdJsonBad
        (.valueError "unreadable JSON from field text" (some (.jsonDecodeError "oops"))))) ∧
    (rpdJsonGood.json = some (.literal .vNone) ∧ rpdJsonGood.data = none) ∧
    (rpdJsonGood.data = none ∨ rpdJsonGood.json = none) :=
  ⟨((C6_json_payload_exact_and_exclusive jlNull pdJsonNoText).1 rfl).1 rfl,
   ((C6_json_payload_exact_and_exclusive jlNull pdJsonBad).1 rfl).2.1 "oops" rfl rfl,
   ((C6_json_payload_exact_and_exclusive jlNull pdJsonGood).1 rfl).2.2 "null" .vNone
     rpdJsonGood rfl rfl rfl,
   (C6_json_payload_exact_and_exclusive jlNull pdJsonGood).2 rpdJsonGood rfl⟩

/-! ## C3: fresh Request vs legacy descriptor -/

/-- A character that Python `repr` certainly keeps verbatim and that does
not force the double-quote delimiter: printable ASCII (codes 32-126) other
than the backslash and both quote kinds.  Outside this range `repr` may
escape (it does escape every control character, DEL, and non-printable
non-ASCII such as U+00A0 or U+2028), so such characters are not plain. -/
def plainUrlChar (c : Char) : Bool :=
  !(c == '\\' || c == '\'' || c == '"' || decide (c.toNat < 32) || decide (127 ≤ c.toNat))

/-- `repr` keeps a plain character unescaped (single-quote delimiter). -/
theorem pyReprEscapeChar_plain (c : Char) (h : plainUrlChar c = true) :
    pyReprEscapeChar '\'' c = [c] := by
  unfold plainUrlChar at h
  simp only [Bool.not_eq_eq_eq_not, Bool.not_true, Bool.or_eq_false_iff,
    beq_eq_false_iff_ne, ne_eq, decide_eq_false_iff_not] at h
  obtain ⟨⟨⟨⟨h1, h2⟩, h3⟩, h4⟩, h5⟩ := h
  have hnl : c ≠ '\n' := fun hh => h4 (by rw [hh]; decide)
  have hcr : c ≠ '\r' := fun hh => h4 (by rw [hh]; decide)
  have htb : c ≠ '\t' := fun hh => h4 (by rw [hh]; decide)
  unfold pyReprEscapeChar
  rw [if_neg h1, if_neg h2, if_neg hnl, if_neg hcr, if_neg htb,
    if_neg (by omega), if_neg (by omega)]

/-- Escaping a list of plain characters is the identity. -/
theorem flatten_escape_plain (l : List Char) (h : ∀ c ∈ l, plainUrlChar c = true) :
    (l.map (pyReprEscapeChar '\'')).flatten = l := by
  induction l with
  | nil => rfl
  | cons c tl ih =>
    rw [List.map_cons, List.flatten_cons,
      pyReprEscapeChar_plain c (h c (List.mem_cons_self _ _)),
      ih (fun x hx => h x (List.mem_cons_of_mem _ hx))]
    rfl

/-- A string of plain characters contains no single quote. -/
theorem contains_quote_false (l : List Char) (h : ∀ c ∈ l, plainUrlChar c = true) :
    l.contains '\'' = false := by
  induction l with
  | nil => rfl
  | cons c tl ih =>
    have hc := h c (List.mem_cons_self _ _)
    unfold plainUrlChar at hc
    simp only [Bool.not_eq_eq_eq_not, Bool.not_true, Bool.or_eq_false_iff,
      beq_eq_false_iff_ne, ne_eq, decide_eq_false_iff_not] at hc
    have hq : c ≠ '\'' := hc.1.1.1.2
    show (('\'' == c) || tl.contains '\'') = false
    rw [beq_false_of_ne (fun hh => hq hh.symm), Bool.false_or]
    exact ih (fun x hx => h x (List.mem_cons_of_mem _ hx))

/-- `repr` of a string of plain characters just wraps it in single quotes. -/
theorem pyRepr_plain (s : String) (h : ∀ c ∈ s.data, plainUrlChar c = true) :
    pyRepr s = String.mk ('\'' :: (s.data ++ ['\''])) := by
  unfold pyRepr
  rw [contains_quote_false s.data h]
  dsimp only [Bool.false_and]
  rw [if_neg (by simp)]
  rw [flatten_escape_plain s.data h]
  rfl

/-- Structure eta for strings. -/
theorem stringMk_data (s : String) : String.mk s.data = s := rfl

/-- Stripping the first and last character undoes plain single-quoting. -/
theorem stripFirstLast_quoted (l : List Char) :
    stripFirstLast (String.mk ('\'' :: (l ++ ['\'']))) = String.mk l := by
  unfold stripFirstLast
  show String.mk ((('\'' :: (l ++ ['\''])).drop 1).dropLast) = String.mk l
  rw [List.drop_one, List.tail_cons, List.dropLast_concat]

/-- The repr of a plain string never carries the `f` template marker. -/
theorem pyRepr_not_fstring (s : String) (h : ∀ c ∈ s.data, plainUrlChar c = true) :
    pyStartsWith (pyRepr s) "f" = false := by
  rw [pyRepr_plain s h]
  rfl

/-- C3 (corrected): building the call from the legacy descriptor agrees with
building it from the fresh `Request` whenever the URL text consists of plain
characters — printable ASCII other than backslash and quotes, i.e. exactly
the characters `repr` is guaranteed to keep verbatim — then `repr` adds only
the quote delimiters that `lreq_to_expr` strips again.  When `repr` must
escape (a backslash, a control character, non-printable non-ASCII; see the
counterexample), the two differ in the `url`/`name` literals, against the
claim as stated. -/
theorem C3_builders_agree_on_plain_urls (jsonLoads : String → Option PyVal)
    (r : Request) (h : ∀ c ∈ r.url.geturl.data, plainUrlChar c = true) :
    lreq_to_expr jsonLoads (LocustRequest.from_request r) = req_to_expr jsonLoads r := by
  unfold lreq_to_expr req_to_expr LocustRequest.from_request
  dsimp only
  rw [if_neg (show ¬ (pyStartsWith (pyRepr r.url.geturl) "f" = true) from by
    rw [pyRepr_not_fstring _ h]; simp)]
  rw [pyRepr_plain _ h, stripFirstLast_quoted, stringMk_data]

/-- Witness for C3 at a plain URL. -/
theorem C3_witness :
    lreq_to_expr jl0 (LocustRequest.from_request getReq) = req_to_expr jl0 getReq :=
  C3_builders_agree_on_plain_urls jl0 getReq (by decide)

/-- A GET request whose URL contains a backslash, which `repr` escapes. -/
def backslashReq : Request :=
  { method := .GET
    url := { geturl := "http://x/\\y", netloc := "x" }
    headers := [] }

/-- The `url` argument of a successfully built call. -/
def urlArgOf : Except PyErr FunctionCall → Option PyExpr
  | .ok fc => fc.named_args.lookup "url"
  | .error _ => none

/-- Counterexample to C3 as stated: at `backslashReq` (URL text
`http://x/\y`) the fresh path produces the literal `http://x/\y` while the
legacy path produces `http://x/\\y` — `repr` doubled the backslash and the
stripping removes only the quote delimiters, so the two builders disagree. -/
theorem C3_counterexample_backslash_url :
    req_to_expr jl0 backslashReq ≠
      lreq_to_expr jl0 (LocustRequest.from_request backslashReq) := by
  intro hcontra
  have h1 : urlArgOf (req_to_expr jl0 backslashReq) =
      some (.literal (.vStr "http://x/\\y")) := rfl
  have h2 : urlArgOf (lreq_to_expr jl0 (LocustRequest.from_request backslashReq)) =
      some (.literal (.vStr "http://x/\\\\y")) := rfl
  rw [hcontra, h2] at h1
  injection h1 with h3
  injection h3 with h4
  injection h4 with h5
  exact absurd h5 (by decide)

/-! ## C7: the Collection Pipeline -/

theorem reqLe_trans : ∀ a b c : Request, reqLe a b → reqLe b c → reqLe a c := by
  intro a b c hab hbc
  simp only [reqLe, decide_eq_true_eq] at *
  omega

theorem reqLe_total : ∀ a b : Request, reqLe a b || reqLe b a := by
  intro a b
  simp only [reqLe, Bool.or_eq_true, decide_eq_true_eq]
  omega

/-- The task yielded by `Task.from_requests` for one surviving request. -/
def yieldedTask (r : Request) : Task := { name := r.task_name, request := r }

/-- C7 (corrected): the claim holds for `Task.from_requests` — its output
requests are exactly the stable-sorted-then-filtered input, hence a
subsequence of a permutation (the sorted arrangement) of the input with no
entry duplicated and every blacklisted-host entry removed, ordered
ascending by timestamp with equal-timestamp entries kept in original order
(stable sort).  `Task2.from_requests`, however, produces output only when
no request survives the filter: with any survivor it raises `TypeError`
while yielding the first task (the `statements=...` slip, see C2), so the
claim as stated fails for it. -/
theorem C7_pipeline_sorted_filtered_stable (on_blacklist : String → Bool)
    (l : List Request) :
    ((Task.from_requests on_blacklist l).map Task.request =
      (l.mergeSort reqLe).filter (fun r => !on_blacklist r.url.netloc)) ∧
    ((l.mergeSort reqLe).filter (fun r => !on_blacklist r.url.netloc)).Sublist
      (l.mergeSort reqLe) ∧
    (l.mergeSort reqLe).Perm l ∧
    (∀ t ∈ Task.from_requests on_blacklist l,
      on_blacklist t.request.url.netloc = false ∧ t.request ∈ l) ∧
    (Task.from_requests on_blacklist l).Pairwise
      (fun a b => a.request.timestamp ≤ b.request.timestamp) ∧
    (∀ a b : Request, [a, b].Sublist l → a.timestamp ≤ b.timestamp →
      on_blacklist a.url.netloc = false → on_blacklist b.url.netloc = false →
      [yieldedTask a, yieldedTask b].Sublist (Task.from_requests on_blacklist l)) ∧
    (Task2.from_requests on_blacklist l =
      if ((l.mergeSort reqLe).filter (fun r => !on_blacklist r.url.netloc)).isEmpty
      then .ok [] else .error (.typeError "ellipsis object is not iterable")) := by
  refine ⟨?_, List.filter_sublist _, List.mergeSort_perm l reqLe, ?_, ?_, ?_, ?_⟩
  · unfold Task.from_requests
    rw [List.map_map]
    exact List.map_id _
  · intro t ht
    unfold Task.from_requests at ht
    obtain ⟨r, hr, rfl⟩ := List.mem_map.mp ht
    have h2 := List.mem_filter.mp hr
    refine ⟨?_, List.mem_mergeSort.mp h2.1⟩
    simpa using h2.2
  · unfold Task.from_requests
    refine List.pairwise_map.mpr ?_
    refine List.Pairwise.imp ?_
      ((List.sorted_mergeSort reqLe_trans reqLe_total l).sublist (List.filter_sublist _))
    intro a b hab
    simpa [reqLe] using hab
  · intro a b hab hle ha hb
    have h1 : [a, b].Sublist (l.mergeSort reqLe) :=
      List.pair_sublist_mergeSort reqLe_trans reqLe_total (by simpa [reqLe] using hle) hab
    have h2 : [a, b].filter (fun r => !on_blacklist r.url.netloc) = [a, b] := by
      simp [ha, hb]
    have h3 := h1.filter (fun r => !on_blacklist r.url.netloc)
    rw [h2] at h3
    exact h3.map yieldedTask
  · unfold Task2.from_requests
    cases hfe : (l.mergeSort reqLe).filter (fun r => !on_blacklist r.url.netloc) with
    | nil => rfl
    | cons x xs =>
      simp [List.mapM, List.mapM.loop, Task2.mkChecked, listOfInit, bind, Except.bind,
        List.isEmpty]

/-- Two equal-timestamp requests for the C7 witness. -/
def raReq : Request :=
  { method := .GET, url := { geturl := "http://a/", netloc := "a" }, headers := []
    timestamp := 1, task_name := "ra" }

/-- See `raReq`. -/
def rbReq : Request :=
  { method := .GET, url := { geturl := "http://b/", netloc := "b" }, headers := []
    timestamp := 1, task_name := "rb" }

/-- A blacklist that rejects nothing. -/
def noBlacklist : String → Bool := fun _ => false

/-- Witness for C7: the membership clause at a singleton input, and the
stability clause at a two-element input with equal timestamps. -/
theorem C7_witness :
    (noBlacklist (yieldedTask raReq).request.url.netloc = false ∧
      (yieldedTask raReq).request ∈ [raReq]) ∧
    [yieldedTask raReq, yieldedTask rbReq].Sublist
      (Task.from_requests noBlacklist [raReq, rbReq]) :=
  ⟨(C7_pipeline_sorted_filtered_stable noBlacklist [raReq]).2.2.2.1 (yieldedTask raReq)
      (by simp [Task.from_requests, noBlacklist, yieldedTask]),
   (C7_pipeline_sorted_filtered_stable noBlacklist [raReq, rbReq]).2.2.2.2.2.1 raReq rbReq
      (List.Sublist.refl _) (by decide) rfl rfl⟩

/-- Counterexample to C7 as stated: `Task2.from_requests` yields no output
sequence at all on a one-request input with nothing blacklisted — it raises
`TypeError` instead. -/
theorem C7_counterexample_task2_has_no_output :
    ¬ ∃ out, Task2.from_requests noBlacklist [raReq] = Except.ok out := by
  rintro ⟨out, hout⟩
  simp [Task2.from_requests, Task2.mkChecked, listOfInit, List.mapM, List.mapM.loop,
    bind, Except.bind, noBlacklist] at hout

end Transformer
